import Mathlib

/-!
Verification of the velocity-map pipeline in `pynbody_velmaps`.

The definitions below are a shallow embedding of the repository's code,
chiefly `pynbody_velmaps/generate.py` (the `Aperture` filter and the
`VelocityMap` class), `pynbody_velmaps/load.py` (`load_particles`), and the
redshift handling of `pynbody_velmaps/scripts/plot_manga_velmaps.py`.
Python floats are modelled as rationals; Python's `int()` truncation and
`ZeroDivisionError` are modelled explicitly.  Calls into external libraries
(pynbody's SPH imaging, scipy's `gaussian_filter`, pafit) are modelled as
abstract function arguments; astropy's `gaussian_fwhm_to_sigma` constant is
embedded by its definition.
-/

namespace PynbodyVelmaps

/-- Python's `int()` applied to a float value: truncation toward zero,
modelled on the rationals. -/
def pyInt (q : ℚ) : ℤ := if 0 ≤ q then ⌊q⌋ else -⌊-q⌋

/-- Python's `/` on floats: raises `ZeroDivisionError` on a zero denominator,
otherwise exact division. -/
def pyDiv (a b : ℚ) : Except String ℚ :=
  if b = 0 then .error ("ZeroDivisionError: float division by zero")
  else .ok (a / b)

/-- `VelocityMap.calc_npixels` (generate.py lines 110-122):
`image_width_arcsec = image_width_kpc / self.kpc_per_arcsec`;
`npixels = int(image_width_arcsec / pixel_scale_arcsec)`. -/
def calc_npixels (kpc_per_arcsec image_width_kpc pixel_scale_arcsec : ℚ) : ℤ :=
  pyInt (image_width_kpc / kpc_per_arcsec / pixel_scale_arcsec)

/-- The comparison `np.sqrt d <= r` of generate.py line 150/152, expressed
without real square roots so that it is executable on rationals; the
equivalence with the real square-root comparison is `sqrtLe_iff_real`. -/
def sqrtLe (d r : ℚ) : Bool := decide (0 ≤ r ∧ d ≤ r ^ 2)

/-- The squared pixel distance `(X - center[0]) ** 2 + (Y - center[1]) ** 2`
of generate.py line 150. -/
def distSq (cx cy x y : ℤ) : ℚ := (((x - cx) ^ 2 + (y - cy) ^ 2 : ℤ) : ℚ)

/-- `VelocityMap.mask_aperture` (generate.py lines 136-155) as a pixel
predicate, row `y` and column `x`.  When `aperture_radius` is not `None`:
`center = (int(w / 2), int(h / 2))` with `w = h = npixels`,
`radius = aperture_radius / kpc_per_arcsec / pixel_scale_arcsec`,
`mask = np.sqrt((X - center[0])**2 + (Y - center[1])**2) <= radius`.
When `aperture_radius` is `None`: `np.ones((npixels, npixels))`, i.e. every
pixel is marked. -/
def mask_aperture (npixels : ℤ) (aperture_radius : Option ℚ)
    (kpc_per_arcsec pixel_scale_arcsec : ℚ) (y x : ℤ) : Bool :=
  match aperture_radius with
  | some a =>
      sqrtLe (distSq (pyInt ((npixels : ℚ) / 2)) (pyInt ((npixels : ℚ) / 2)) x y)
        (a / kpc_per_arcsec / pixel_scale_arcsec)
  | none => true

/-- The mask of `VelocityMap.mask_aperture` laid out as a grid (list of rows)
of shape `(npixels, npixels)`, as `np.ogrid[:h, :w]` produces it. -/
def mask_grid (npixels : ℤ) (aperture_radius : Option ℚ)
    (kpc_per_arcsec pixel_scale_arcsec : ℚ) : List (List Bool) :=
  (List.range npixels.toNat).map fun (y : ℕ) =>
    (List.range npixels.toNat).map fun (x : ℕ) =>
      mask_aperture npixels aperture_radius kpc_per_arcsec pixel_scale_arcsec
        (y : ℤ) (x : ℤ)

theorem sqrtLe_iff_real (d r : ℚ) :
    sqrtLe d r = true ↔ Real.sqrt (d : ℝ) ≤ (r : ℝ) := by
  rw [Real.sqrt_le_iff, sqrtLe, decide_eq_true_iff]
  constructor
  · rintro ⟨h1, h2⟩
    exact ⟨by exact_mod_cast h1, by exact_mod_cast h2⟩
  · rintro ⟨h1, h2⟩
    exact ⟨by exact_mod_cast h1, by exact_mod_cast h2⟩

/-- C1: with `aperture_radius` not `None`, `mask_aperture` yields a grid of
shape `(npixels, npixels)` in which pixel (row `y`, column `x`) is `True`
exactly when its Euclidean distance from the center pixel
`(int(npixels/2), int(npixels/2))` is at most
`aperture_radius / kpc_per_arcsec / pixel_scale_arcsec`; with
`aperture_radius = None` every pixel of the grid is marked. -/
theorem mask_aperture_marks_disc (npixels : ℤ) (a kpa ps : ℚ) (y x : ℤ) :
    ((mask_grid npixels (some a) kpa ps).length = npixels.toNat
      ∧ (∀ row ∈ mask_grid npixels (some a) kpa ps, row.length = npixels.toNat)
      ∧ (mask_grid npixels none kpa ps).length = npixels.toNat
      ∧ (∀ row ∈ mask_grid npixels none kpa ps, row.length = npixels.toNat))
    ∧ (mask_aperture npixels (some a) kpa ps y x = true ↔
        Real.sqrt (((x : ℝ) - ((pyInt ((npixels : ℚ) / 2) : ℤ) : ℝ)) ^ 2
            + ((y : ℝ) - ((pyInt ((npixels : ℚ) / 2) : ℤ) : ℝ)) ^ 2)
          ≤ ((a / kpa / ps : ℚ) : ℝ))
    ∧ mask_aperture npixels none kpa ps y x = true := by
  refine ⟨⟨?_, ?_, ?_, ?_⟩, ?_, rfl⟩
  · simp [mask_grid]
  · intro row hrow
    simp only [mask_grid, List.mem_map] at hrow
    obtain ⟨i, _, rfl⟩ := hrow
    simp
  · simp [mask_grid]
  · intro row hrow
    simp only [mask_grid, List.mem_map] at hrow
    obtain ⟨i, _, rfl⟩ := hrow
    simp
  · have hd : ((distSq (pyInt ((npixels : ℚ) / 2)) (pyInt ((npixels : ℚ) / 2)) x y : ℚ) : ℝ)
        = ((x : ℝ) - ((pyInt ((npixels : ℚ) / 2) : ℤ) : ℝ)) ^ 2
          + ((y : ℝ) - ((pyInt ((npixels : ℚ) / 2) : ℤ) : ℝ)) ^ 2 := by
      unfold distSq
      push_cast
      ring
    rw [show mask_aperture npixels (some a) kpa ps y x
        = sqrtLe (distSq (pyInt ((npixels : ℚ) / 2)) (pyInt ((npixels : ℚ) / 2)) x y)
            (a / kpa / ps) from rfl,
      sqrtLe_iff_real, hd]

theorem pyInt_of_nonneg {q : ℚ} (h : 0 ≤ q) : pyInt q = ⌊q⌋ := by
  simp [pyInt, h]

/-- C2 counterexample: on a 2-by-2 grid (npixels = 2, aperture radius 1/2 in
pixel units) the center pixel (1,1) is marked but its left-right mirror
pixel (1,0) is not, so the mask is not invariant under reflection. -/
theorem mask_aperture_reflect_cex :
    mask_aperture 2 (some (1 / 2)) 1 1 1 1 = true
    ∧ mask_aperture 2 (some (1 / 2)) 1 1 1 (2 - 1 - 1) = false := by
  constructor <;> norm_num [mask_aperture, sqrtLe, distSq, pyInt]

/-- C2 (amended): for every odd npixels at least 1 and every aperture radius
(including `None`), the aperture mask is unchanged by reflecting the pixel
grid left-right and by reflecting it up-down; for even npixels the center
pixel `int(npixels/2)` is off the grid's geometric center and the symmetry
fails (see the counterexample). -/
theorem mask_aperture_reflect_odd (npixels : ℤ) (ap : Option ℚ) (kpa ps : ℚ)
    (y x : ℤ) (hn : 1 ≤ npixels) (hodd : npixels % 2 = 1) :
    mask_aperture npixels ap kpa ps y x
      = mask_aperture npixels ap kpa ps y (npixels - 1 - x)
    ∧ mask_aperture npixels ap kpa ps y x
      = mask_aperture npixels ap kpa ps (npixels - 1 - y) x := by
  obtain ⟨m, hm⟩ : ∃ m : ℤ, npixels = 2 * m + 1 := ⟨npixels / 2, by omega⟩
  have hm0 : 0 ≤ m := by omega
  have hc : pyInt ((npixels : ℚ) / 2) = m := by
    have h0 : (0 : ℚ) ≤ (npixels : ℚ) / 2 := by
      apply div_nonneg _ (by norm_num)
      exact_mod_cast (by omega : (0 : ℤ) ≤ npixels)
    have h2 : (npixels : ℚ) / 2 = (m : ℚ) + 1 / 2 := by
      rw [hm]; push_cast; ring
    have h3 : ⌊(1 / 2 : ℚ)⌋ = 0 := by
      rw [Int.floor_eq_zero_iff]
      constructor <;> norm_num
    rw [pyInt_of_nonneg h0, h2, Int.floor_int_add, h3, add_zero]
  rcases ap with _ | a
  · exact ⟨rfl, rfl⟩
  · have hx2 : distSq m m (npixels - 1 - x) y = distSq m m x y := by
      unfold distSq
      rw [hm]
      push_cast
      ring
    have hy2 : distSq m m x (npixels - 1 - y) = distSq m m x y := by
      unfold distSq
      rw [hm]
      push_cast
      ring
    constructor
    · show sqrtLe _ _ = sqrtLe _ _
      rw [hc, hx2]
    · show sqrtLe _ _ = sqrtLe _ _
      rw [hc, hy2]

/-- Witness for the amended C2 on a concrete 3-by-3 grid. -/
theorem mask_aperture_reflect_odd_witness :
    mask_aperture 3 (some 1) 1 1 0 1 = mask_aperture 3 (some 1) 1 1 0 (3 - 1 - 1)
    ∧ mask_aperture 3 (some 1) 1 1 0 1
        = mask_aperture 3 (some 1) 1 1 (3 - 1 - 0) 1 :=
  mask_aperture_reflect_odd 3 (some 1) 1 1 0 1 (by decide) (by decide)

/-- C3 counterexample: at image_width_kpc = 5/2, kpc_per_arcsec = 1,
pixel_scale_arcsec = 1 and k = 2, halving the pixel scale gives
`int(5) = 5` pixels, not `2 * int(5/2) = 4`, so the claimed exact scaling
equality fails. -/
theorem calc_npixels_scaling_cex :
    calc_npixels 1 (5 / 2) (1 / 2) ≠ 2 * calc_npixels 1 (5 / 2) 1 := by
  norm_num [calc_npixels, pyInt]

/-- C3 (amended): for a nonnegative image width in arcseconds and positive
pixel scales, `calc_npixels` is antitone in the pixel-scale parameter, and
dividing the pixel scale by a positive integer k multiplies the pixel count
by k up to truncation:
`k * calc_npixels(w, p) ≤ calc_npixels(w, p / k) ≤ k * calc_npixels(w, p) + (k - 1)`;
exact equality can fail by the truncation remainder. -/
theorem calc_npixels_antitone_and_scaling (kpa w : ℚ) (hw : 0 ≤ w / kpa) :
    (∀ p1 p2 : ℚ, 0 < p1 → p1 ≤ p2 →
        calc_npixels kpa w p2 ≤ calc_npixels kpa w p1)
    ∧ ∀ (p : ℚ) (k : ℕ), 0 < p → 0 < k →
        (k : ℤ) * calc_npixels kpa w p ≤ calc_npixels kpa w (p / (k : ℚ))
        ∧ calc_npixels kpa w (p / (k : ℚ))
            ≤ (k : ℤ) * calc_npixels kpa w p + ((k : ℤ) - 1) := by
  constructor
  · intro p1 p2 h1 h12
    have h2 : 0 < p2 := lt_of_lt_of_le h1 h12
    unfold calc_npixels
    rw [pyInt_of_nonneg (div_nonneg hw h2.le), pyInt_of_nonneg (div_nonneg hw h1.le)]
    exact Int.floor_mono (div_le_div_of_nonneg_left hw h1 h12)
  · intro p k hp hk
    have hk' : (0 : ℚ) < (k : ℚ) := by exact_mod_cast hk
    have hsplit : w / kpa / (p / (k : ℚ)) = (k : ℚ) * (w / kpa / p) := by
      field_simp
      ring
    have hq : 0 ≤ w / kpa / p := div_nonneg hw hp.le
    have hkq : 0 ≤ (k : ℚ) * (w / kpa / p) := mul_nonneg hk'.le hq
    unfold calc_npixels
    rw [hsplit, pyInt_of_nonneg hkq, pyInt_of_nonneg hq]
    constructor
    · rw [Int.le_floor]
      push_cast
      exact mul_le_mul_of_nonneg_left (Int.floor_le _) hk'.le
    · have hlt : ⌊(k : ℚ) * (w / kpa / p)⌋ < (k : ℤ) * ⌊w / kpa / p⌋ + (k : ℤ) := by
        rw [Int.floor_lt]
        push_cast
        calc (k : ℚ) * (w / kpa / p)
            < (k : ℚ) * ((⌊w / kpa / p⌋ : ℚ) + 1) :=
              mul_lt_mul_of_pos_left (Int.lt_floor_add_one _) hk'
          _ = (k : ℚ) * (⌊w / kpa / p⌋ : ℚ) + (k : ℚ) := by ring
      omega

/-- Witness for the amended C3 at concrete parameters. -/
theorem calc_npixels_antitone_and_scaling_witness :
    calc_npixels 1 1 2 ≤ calc_npixels 1 1 1
    ∧ ((2 : ℕ) : ℤ) * calc_npixels 1 1 1 ≤ calc_npixels 1 1 (1 / ((2 : ℕ) : ℚ))
    ∧ calc_npixels 1 1 (1 / ((2 : ℕ) : ℚ))
        ≤ ((2 : ℕ) : ℤ) * calc_npixels 1 1 1 + (((2 : ℕ) : ℤ) - 1) :=
  ⟨(calc_npixels_antitone_and_scaling 1 1 (by norm_num)).1 1 2 (by norm_num)
      (by norm_num),
    ((calc_npixels_antitone_and_scaling 1 1 (by norm_num)).2 1 2 (by norm_num)
      (by norm_num)).1,
    ((calc_npixels_antitone_and_scaling 1 1 (by norm_num)).2 1 2 (by norm_num)
      (by norm_num)).2⟩

/-- A simulation particle as the `Aperture` filter sees it: a position
`pos = (x, y, z)`; only the first two coordinates are read. -/
structure Particle where
  x : ℚ
  y : ℚ
  z : ℚ
deriving DecidableEq

/-- `Aperture.__call__` (generate.py lines 32-53) on one particle:
`distance = ((sim["pos"][:, :2] - self.cen) ** 2).sum(axis=1)`;
`return distance < radius ** 2`. -/
def aperture_call (radius : ℚ) (cen : ℚ × ℚ) (p : Particle) : Bool :=
  decide ((p.x - cen.1) ^ 2 + (p.y - cen.2) ^ 2 < radius ^ 2)

/-- `VelocityMap.restrict_halo` (generate.py lines 124-134):
`halo[Aperture(self.halo_max_size, cen=(0, 0))]`. -/
def restrict_halo (halo_max_size : ℚ) (halo : List Particle) : List Particle :=
  halo.filter (aperture_call halo_max_size (0, 0))

/-- `VelocityMap.__init__` (generate.py lines 92-95):
`self.halo_max_size = aperture_kpc` when `halo_max_size is None`, else
`halo_max_size`. -/
def resolve_halo_max_size (aperture_kpc : ℚ) (halo_max_size : Option ℚ) : ℚ :=
  halo_max_size.getD aperture_kpc

/-- C4: with `halo_max_size = None` the constructor restricts the halo by
`Aperture(aperture_kpc)`, keeping exactly the particles whose x-y squared
distance from the origin is under `aperture_kpc ** 2`, and the mask marks
exactly the pixels whose Euclidean distance from the center pixel is at most
the same radius in pixel units,
`aperture_kpc / kpc_per_arcsec / pixel_scale_arcsec`. -/
theorem aperture_used_for_particles_and_mask (halo : List Particle)
    (a kpa ps : ℚ) (p : Particle) (npixels y x : ℤ) :
    (p ∈ restrict_halo (resolve_halo_max_size a none) halo ↔
      p ∈ halo ∧ p.x ^ 2 + p.y ^ 2 < a ^ 2)
    ∧ (mask_aperture npixels (some a) kpa ps y x = true ↔
        Real.sqrt
            ((distSq (pyInt ((npixels : ℚ) / 2)) (pyInt ((npixels : ℚ) / 2)) x y : ℚ)
              : ℝ)
          ≤ ((a / kpa / ps : ℚ) : ℝ)) := by
  constructor
  · simp [restrict_halo, List.mem_filter, aperture_call, resolve_halo_max_size]
  · rw [show mask_aperture npixels (some a) kpa ps y x
        = sqrtLe (distSq (pyInt ((npixels : ℚ) / 2)) (pyInt ((npixels : ℚ) / 2)) x y)
            (a / kpa / ps) from rfl,
      sqrtLe_iff_real]

/-- Pixel images, indexed by (row, column); the pipeline's float-valued
arrays are modelled as rational-valued grids. -/
def Img : Type := ℤ → ℤ → ℚ

/-- `VelocityMap.generate_los_map` (generate.py lines 157-184): two external
SPH projections (`pynbody.plot.sph.image`, one call per quantity name,
modelled by the abstract argument `sphImage`) divided pointwise:
`im = im / im2`. -/
def generate_los_map (sphImage : String → Img) : Img :=
  fun y x => sphImage ("map_qty") y x / sphImage ("map_weights") y x

/-- astropy's `gaussian_fwhm_to_sigma` constant, `1 / (2 * sqrt(2 * ln 2))`
(astropy.stats; external dependency embedded by its definition). -/
noncomputable def gaussian_fwhm_to_sigma : ℝ := 1 / (2 * Real.sqrt (2 * Real.log 2))

/-- The sigma handed to scipy's `gaussian_filter` by
`VelocityMap.convolve_fwhm` (generate.py lines 189-198):
`sigma_arcsec = self.fwhm_arcsec * gaussian_fwhm_to_sigma`;
`sigma_pixels = sigma_arcsec / self.pixel_scale_arcsec`. -/
noncomputable def convolve_sigma_pixels (fwhm_arcsec pixel_scale_arcsec : ℚ) : ℝ :=
  (fwhm_arcsec : ℝ) * gaussian_fwhm_to_sigma / (pixel_scale_arcsec : ℝ)

/-- `VelocityMap.convolve_fwhm` (generate.py lines 189-198):
`im = gaussian_filter(self.data.data, sigma=sigma_pixels)`; `gaussian_filter`
is external scipy code, modelled by the abstract argument `gfilter`. -/
noncomputable def convolve_fwhm (gfilter : ℝ → Img → Img)
    (fwhm_arcsec pixel_scale_arcsec : ℚ) (data : Img) : Img :=
  gfilter (convolve_sigma_pixels fwhm_arcsec pixel_scale_arcsec) data

/-- C7: the Gaussian filter applied by `convolve_fwhm` receives a sigma in
pixels equal to `fwhm_arcsec * (1 / (2 * sqrt(2 * ln 2))) / pixel_scale_arcsec`. -/
theorem convolve_fwhm_sigma (gfilter : ℝ → Img → Img)
    (fwhm_arcsec pixel_scale_arcsec : ℚ) (data : Img) :
    convolve_fwhm gfilter fwhm_arcsec pixel_scale_arcsec data
      = gfilter
          ((fwhm_arcsec : ℝ) * (1 / (2 * Real.sqrt (2 * Real.log 2)))
            / (pixel_scale_arcsec : ℝ))
          data := rfl

/-- The attributes a `VelocityMap` object holds once `__init__` returns
(generate.py lines 87-108). -/
structure VMap where
  pixel_scale_arcsec : ℚ
  image_width_kpc : ℚ
  fwhm_arcsec : Option ℚ
  aperture_radius : ℚ
  halo_max_size : ℚ
  kpc_per_arcsec : ℚ
  npixels : ℤ
  kpc_per_pixel : ℚ
  particles : List Particle
  mask : ℤ → ℤ → Bool
  raw : Img
  data : Img

/-- `VelocityMap.__init__` (generate.py lines 64-108).  `kpc_per_arcsec` is
the value of the external `cosmo.kpc_proper_per_arcmin(z)` conversion, taken
as an argument.  `self.kpc_per_pixel = self.image_width_kpc / self.npixels`
raises `ZeroDivisionError` when `npixels` is zero, so construction is
modelled in `Except`.  The PSF convolution runs here, once, exactly when
`fwhm_arcsec is not None`. -/
noncomputable def VelocityMap_init (gfilter : ℝ → Img → Img)
    (sphImage : String → Img) (halo : List Particle)
    (kpc_per_arcsec image_width_kpc aperture_kpc pixel_scale_arcsec : ℚ)
    (fwhm_arcsec : Option ℚ) (halo_max_size : Option ℚ) : Except String VMap :=
  match pyDiv image_width_kpc
      ((calc_npixels kpc_per_arcsec image_width_kpc pixel_scale_arcsec : ℤ) : ℚ) with
  | .error e => .error e
  | .ok kpp =>
      .ok { pixel_scale_arcsec := pixel_scale_arcsec
            image_width_kpc := image_width_kpc
            fwhm_arcsec := fwhm_arcsec
            aperture_radius := aperture_kpc
            halo_max_size := resolve_halo_max_size aperture_kpc halo_max_size
            kpc_per_arcsec := kpc_per_arcsec
            npixels := calc_npixels kpc_per_arcsec image_width_kpc pixel_scale_arcsec
            kpc_per_pixel := kpp
            particles :=
              restrict_halo (resolve_halo_max_size aperture_kpc halo_max_size) halo
            mask :=
              mask_aperture
                (calc_npixels kpc_per_arcsec image_width_kpc pixel_scale_arcsec)
                (some aperture_kpc) kpc_per_arcsec pixel_scale_arcsec
            raw := generate_los_map sphImage
            data :=
              match fwhm_arcsec with
              | some f =>
                  convolve_fwhm gfilter f pixel_scale_arcsec
                    (generate_los_map sphImage)
              | none => generate_los_map sphImage }

/-- `VelocityMap.mask_aperture` as a method call on a constructed object:
reads attributes, assigns none, returns the mask. -/
def VMap.mask_aperture_m (s : VMap) : (ℤ → ℤ → Bool) × VMap :=
  (mask_aperture s.npixels (some s.aperture_radius) s.kpc_per_arcsec
      s.pixel_scale_arcsec, s)

/-- `VelocityMap.generate_los_map` as a method call: reads attributes,
assigns none, returns the projected image. -/
def VMap.generate_los_map_m (sphImage : String → Img) (s : VMap) : Img × VMap :=
  (generate_los_map sphImage, s)

/-- `VelocityMap.convolve_fwhm` as a method call: reads `self.fwhm_arcsec`,
`self.pixel_scale_arcsec` and `self.data`, assigns none, returns the blurred
image (`none` when `fwhm_arcsec` is `None`, where the Python multiplication
would fail). -/
noncomputable def VMap.convolve_fwhm_m (gfilter : ℝ → Img → Img) (s : VMap) :
    Option Img × VMap :=
  ((s.fwhm_arcsec).map
      (fun f => convolve_fwhm gfilter f s.pixel_scale_arcsec s.data), s)

/-- `plot.plot_map` (plot.py lines 6-62): the pixel payload it draws is
`vel_map.data.data * vel_map.data.mask`; matplotlib drawing is external and
the map object is only read, never written. -/
def VMap.plot_map_m (s : VMap) : Img × VMap :=
  ((fun y x => s.data y x * (if s.mask y x then 1 else 0)), s)

/-- `position_angles.calc_pa` (position_angles.py lines 12-15): hands the
masked pixel payload to the external `pafit.fit_kinematic_pa` (modelled by
the abstract argument `fitPa`); the map object is only read. -/
def calc_pa_m (fitPa : Img → ℚ × ℚ × ℚ) (s : VMap) : (ℚ × ℚ × ℚ) × VMap :=
  (fitPa (fun y x => s.data y x * (if s.mask y x then 1 else 0)), s)

/-- C5: a `VelocityMap` is immutable after construction — each public
operation returns its value with the object state unchanged — and the stored
`data` equals the convolved raw map exactly when `fwhm_arcsec` is not `None`,
and the raw map itself otherwise. -/
theorem velocity_map_immutable (gfilter : ℝ → Img → Img)
    (sphImage : String → Img) (fitPa : Img → ℚ × ℚ × ℚ) (halo : List Particle)
    (kpa w a ps : ℚ) (fwhm : Option ℚ) (hms : Option ℚ) (s : VMap)
    (h : VelocityMap_init gfilter sphImage halo kpa w a ps fwhm hms = .ok s) :
    (s.mask_aperture_m).2 = s
    ∧ (VMap.generate_los_map_m sphImage s).2 = s
    ∧ (VMap.convolve_fwhm_m gfilter s).2 = s
    ∧ (s.plot_map_m).2 = s
    ∧ (calc_pa_m fitPa s).2 = s
    ∧ s.data = (match fwhm with
        | some f => convolve_fwhm gfilter f ps s.raw
        | none => s.raw) := by
  refine ⟨rfl, rfl, rfl, rfl, rfl, ?_⟩
  unfold VelocityMap_init at h
  split at h
  · exact absurd h (by simp)
  · simp only [Except.ok.injEq] at h
    subst h
    cases fwhm <;> rfl

def gfilterId : ℝ → Img → Img := fun _ im => im

def sphImageOne : String → Img := fun _ _ _ => 1

def fitPaZero : Img → ℚ × ℚ × ℚ := fun _ => (0, 0, 0)

/-- The `VelocityMap` built at redshift-independent unit parameters with no
PSF, used as a concrete construction witness. -/
def vmExample : VMap :=
  { pixel_scale_arcsec := 1
    image_width_kpc := 1
    fwhm_arcsec := none
    aperture_radius := 1
    halo_max_size := 1
    kpc_per_arcsec := 1
    npixels := 1
    kpc_per_pixel := 1
    particles := []
    mask := mask_aperture 1 (some 1) 1 1
    raw := generate_los_map sphImageOne
    data := generate_los_map sphImageOne }

theorem vmExample_init :
    VelocityMap_init gfilterId sphImageOne [] 1 1 1 1 none none
      = .ok vmExample := by
  have hcalc : calc_npixels 1 1 1 = 1 := by norm_num [calc_npixels, pyInt]
  unfold VelocityMap_init
  rw [hcalc]
  simp [pyDiv, vmExample, resolve_halo_max_size, restrict_halo]

/-- Witness for C5 on a concretely constructed map. -/
theorem velocity_map_immutable_witness :
    (vmExample.mask_aperture_m).2 = vmExample
    ∧ (VMap.generate_los_map_m sphImageOne vmExample).2 = vmExample
    ∧ (VMap.convolve_fwhm_m gfilterId vmExample).2 = vmExample
    ∧ (vmExample.plot_map_m).2 = vmExample
    ∧ (calc_pa_m fitPaZero vmExample).2 = vmExample
    ∧ vmExample.data = (match (none : Option ℚ) with
        | some f => convolve_fwhm gfilterId f 1 vmExample.raw
        | none => vmExample.raw) :=
  velocity_map_immutable gfilterId sphImageOne fitPaZero [] 1 1 1 1 none none
    vmExample vmExample_init

/-- Whether an `Except` computation succeeded. -/
def exceptOk {ε α : Type} : Except ε α → Bool
  | .ok _ => true
  | .error _ => false

/-- C9 counterexample: at `image_width_kpc = -5/2`, `kpc_per_arcsec = 1`,
`pixel_scale_arcsec = 1` the image width in arcseconds (`-5/2`) is smaller
than the pixel scale, yet `calc_npixels` returns `-2`, not `0`, and
construction completes. -/
theorem npixels_zero_cex :
    (-5 / 2 : ℚ) / 1 < 1
    ∧ calc_npixels 1 (-5 / 2) 1 ≠ 0
    ∧ exceptOk
        (VelocityMap_init gfilterId sphImageOne [] 1 (-5 / 2) 1 1 none none)
        = true := by
  have hcalc : calc_npixels 1 (-5 / 2) 1 = -2 := by
    norm_num [calc_npixels, pyInt]
  refine ⟨by norm_num, by rw [hcalc]; decide, ?_⟩
  unfold VelocityMap_init
  rw [hcalc]
  norm_num [pyDiv, exceptOk]

/-- C9 (amended): whenever the image width in arcseconds is nonnegative and
smaller than the pixel scale, `calc_npixels` returns 0 and construction
fails with a `ZeroDivisionError` computing `kpc_per_pixel`; for every input,
construction never completes with `npixels = 0`. -/
theorem construction_fails_on_zero_npixels (gfilter : ℝ → Img → Img)
    (sphImage : String → Img) (halo : List Particle) (kpa w a ps : ℚ)
    (fwhm : Option ℚ) (hms : Option ℚ) :
    (0 ≤ w / kpa → w / kpa < ps →
      calc_npixels kpa w ps = 0
      ∧ VelocityMap_init gfilter sphImage halo kpa w a ps fwhm hms
          = .error ("ZeroDivisionError: float division by zero"))
    ∧ ∀ s : VMap,
        VelocityMap_init gfilter sphImage halo kpa w a ps fwhm hms = .ok s →
        s.npixels ≠ 0 := by
  constructor
  · intro h0 h1
    have hps : 0 < ps := lt_of_le_of_lt h0 h1
    have hq0 : 0 ≤ w / kpa / ps := div_nonneg h0 hps.le
    have hq1 : w / kpa / ps < 1 := (div_lt_one hps).mpr h1
    have hcalc : calc_npixels kpa w ps = 0 := by
      unfold calc_npixels
      rw [pyInt_of_nonneg hq0]
      rw [Int.floor_eq_zero_iff]
      exact ⟨hq0, hq1⟩
    refine ⟨hcalc, ?_⟩
    unfold VelocityMap_init
    rw [hcalc]
    norm_num [pyDiv]
  · intro s h
    unfold VelocityMap_init at h
    split at h
    · exact absurd h (by simp)
    · rename_i kpp heq
      simp only [Except.ok.injEq] at h
      subst h
      intro hnz
      have hnz' : calc_npixels kpa w ps = 0 := hnz
      rw [pyDiv, hnz'] at heq
      norm_num at heq
      exact Except.noConfusion heq

/-- Witness for the amended C9 at concrete parameters. -/
theorem construction_fails_on_zero_npixels_witness :
    calc_npixels 1 1 2 = 0
    ∧ VelocityMap_init gfilterId sphImageOne [] 1 1 1 2 none none
        = .error ("ZeroDivisionError: float division by zero") :=
  (construction_fails_on_zero_npixels gfilterId sphImageOne [] 1 1 1 2
      none none).1 (by norm_num) (by norm_num)

/-- A star particle as `load_particles` sees it: only the formation time
`tform` is read (black holes are stars with `tform < 0`). -/
structure Star where
  tform : ℚ
deriving DecidableEq

/-- A snapshot as `load_particles` (load.py lines 98-108) sees it:
`families` is the family dictionary `dict(zip(family_names, family_particles))`
in construction order, and `star_has_tform` records whether the star subset
carries a `tform` array (its absence makes `sim.s["tform"]` raise
`KeyError`). -/
structure Sim where
  families : List (String × List Star)
  star_has_tform : Bool
deriving DecidableEq

/-- The star subset `sim.s`. -/
def Sim.s (sim : Sim) : List Star := ((sim.families).lookup ("star")).getD []

/-- `load_particles` (load.py lines 98-108): returns the family dictionary,
adding `family_dict["bh"] = sim.s[sim.s["tform"] < 0]` when no `bh` family
exists and `tform` is available, and printing `Cannot find BH` (returned
here as a log) when the `tform` lookup raises `KeyError`. -/
def load_particles (sim : Sim) : List (String × List Star) × List String :=
  if ((sim.families).lookup ("bh")).isSome then (sim.families, [])
  else if sim.star_has_tform then
    (sim.families ++ [(("bh"), (Sim.s sim).filter fun p => decide (p.tform < 0))],
      [])
  else (sim.families, [("Cannot find BH")])

theorem lookup_append_of_none {α β : Type} [BEq α] (k : α)
    (l1 l2 : List (α × β)) (h : l1.lookup k = none) :
    (l1 ++ l2).lookup k = l2.lookup k := by
  induction l1 with
  | nil => rfl
  | cons a t ih =>
      rw [List.cons_append]
      rw [List.lookup] at h ⊢
      cases hk : (k == a.1) with
      | true => rw [hk] at h; exact Option.noConfusion h
      | false => rw [hk] at h; exact ih h

/-- The simulation of the C6 counterexample: it has both a star family with
a negative formation-time star and an (empty) black-hole family, and its
star subset carries `tform`. -/
def simWithBh : Sim :=
  { families := [(("star"), [⟨-1⟩]), (("bh"), [])]
    star_has_tform := true }

/-- C6 counterexample: for a simulation whose family dictionary already has
a `bh` entry, `tform` exists yet `load_particles` leaves the `bh` entry as
the black-hole family, not the star particles with `tform < 0`. -/
theorem load_particles_bh_cex :
    simWithBh.star_has_tform = true
    ∧ (load_particles simWithBh).1.lookup ("bh")
        ≠ some ((Sim.s simWithBh).filter fun p => decide (p.tform < 0)) := by
  constructor
  · rfl
  · decide

/-- C6 (amended): for every simulation whose family dictionary lacks a `bh`
entry: if the star subset has no `tform` key, `load_particles` catches the
`KeyError`, prints `Cannot find BH`, and returns the family dictionary
(still without a `bh` key) normally; if `tform` exists, the `bh` entry is
set to the star particles with `tform < 0` and nothing is printed. -/
theorem load_particles_bh_handling (sim : Sim)
    (hbh : (sim.families).lookup ("bh") = none) :
    (sim.star_has_tform = false →
      load_particles sim = (sim.families, [("Cannot find BH")])
      ∧ (load_particles sim).1.lookup ("bh") = none)
    ∧ (sim.star_has_tform = true →
      (load_particles sim).1.lookup ("bh")
          = some ((Sim.s sim).filter fun p => decide (p.tform < 0))
      ∧ (load_particles sim).2 = []) := by
  constructor
  · intro hft
    have hload : load_particles sim = (sim.families, [("Cannot find BH")]) := by
      unfold load_particles
      rw [hbh, hft]
      simp
    exact ⟨hload, by rw [hload]; exact hbh⟩
  · intro hft
    have hload : load_particles sim
        = (sim.families
            ++ [(("bh"), (Sim.s sim).filter fun p => decide (p.tform < 0))], []) := by
      unfold load_particles
      rw [hbh, hft]
      simp
    rw [hload]
    refine ⟨?_, rfl⟩
    rw [lookup_append_of_none _ _ _ hbh]
    rfl

/-- A simulation with star particles but no `tform` array and no `bh` family. -/
def simNoTform : Sim := { families := [(("star"), [⟨1⟩])], star_has_tform := false }

/-- A simulation with a `tform` array, one black hole (negative `tform`) and
no `bh` family. -/
def simTform : Sim :=
  { families := [(("star"), [⟨-1⟩, ⟨2⟩])], star_has_tform := true }

/-- Witness for the amended C6 on the two concrete simulations. -/
theorem load_particles_bh_handling_witness :
    (load_particles simNoTform = (simNoTform.families, [("Cannot find BH")])
      ∧ (load_particles simNoTform).1.lookup ("bh") = none)
    ∧ ((load_particles simTform).1.lookup ("bh")
          = some ((Sim.s simTform).filter fun p => decide (p.tform < 0))
      ∧ (load_particles simTform).2 = []) :=
  ⟨(load_particles_bh_handling simNoTform rfl).1 rfl,
    (load_particles_bh_handling simTform rfl).2 rfl⟩

/-- The redshift handling of `plot_manga_velmaps.py` (lines 110-113):
`redshift = 0.03 if args.redshift == 0 else args.redshift`. -/
def main_effective_redshift (redshift_arg : ℚ) : ℚ :=
  if redshift_arg = 0 then 3 / 100 else redshift_arg

/-- C10: the command-line script substitutes redshift 0.03 exactly when the
redshift argument equals 0, and uses every other argument unchanged. -/
theorem redshift_silently_substituted (z : ℚ) :
    main_effective_redshift 0 = 3 / 100
    ∧ (z ≠ 0 → main_effective_redshift z = z) := by
  constructor
  · rfl
  · intro hz
    simp [main_effective_redshift, hz]

/-- Witness for C10 at concrete redshifts 0 and 1/20. -/
theorem redshift_silently_substituted_witness :
    main_effective_redshift 0 = 3 / 100
    ∧ main_effective_redshift (1 / 20) = 1 / 20 :=
  ⟨(redshift_silently_substituted 0).1,
    (redshift_silently_substituted (1 / 20)).2 (by norm_num)⟩

end PynbodyVelmaps
